import Mathlib

/-
Verification of the Outlier Earnings Analyzer (src/app.py).

Shallow embedding conventions:
  * Calendar dates are integer day numbers (days since 1970-01-01 in the
    proleptic Gregorian calendar).  `pd.to_datetime(..., format='%b %d, %Y')`
    produces midnight timestamps, so a parsed `workDate` carries no
    time-of-day and a day number is the whole grouping key.
  * Money is modeled as `ℚ` (the Python code uses floats).
  * `pd.to_datetime(..., errors='coerce')` yielding `NaT`, and the `NaT`
    that `Series.max()` returns on an empty frame, are modeled with
    `Option`. `NaT.strftime` raising `ValueError` is the error case of the
    rendering step.  Pandas `Timestamp` min/max range limits are not modeled.
  * Streamlit rendering is modeled as a list of `RenderItem`s emitted in
    program order; the top-level `try/except` is the `error` field of
    `AppOutput` (the page shows "An error occurred while processing the
    file: {cause}" for `AppError.generic cause`).
-/

namespace OutlierEarnings

/-- Value of a list of decimal digit characters, most significant first. -/
def digitsToNat (ds : List Char) : Nat :=
  ds.foldl (fun n c => 10 * n + (c.toNat - 48)) 0

/-- Gregorian leap-year test, as used by Python `datetime`. -/
def isLeap (y : Nat) : Bool :=
  y % 4 == 0 && (y % 100 != 0 || y % 400 == 0)

/-- Number of days in month `m` (1..12) of year `y`. -/
def daysInMonth (y m : Nat) : Nat :=
  if m = 2 then (if isLeap y then 29 else 28)
  else if m = 4 ∨ m = 6 ∨ m = 9 ∨ m = 11 then 30
  else 31

/-- Day number (days since 1970-01-01) of the Gregorian date y-m-d,
    for a 4-digit year as matched by strptime `%Y`. -/
def days_from_civil (y m d : Nat) : Int :=
  let y2 : Nat := if m ≤ 2 then y - 1 else y
  let era : Nat := y2 / 400
  let yoe : Nat := y2 % 400
  let mp : Nat := (m + 9) % 12
  let doy : Nat := (153 * mp + 2) / 5 + (d - 1)
  let doe : Nat := yoe * 365 + yoe / 4 - yoe / 100 + doy
  (era : Int) * 146097 + (doe : Int) - 719468

/-- The abbreviated month names matched (case-insensitively) by strptime `%b`. -/
def monthNames : List String :=
  ["jan", "feb", "mar", "apr", "may", "jun",
   "jul", "aug", "sep", "oct", "nov", "dec"]

/-- Month number (1..12) from an abbreviated month name, case-insensitive. -/
def monthFromAbbrev (s : List Char) : Option Nat :=
  (monthNames.findIdx? (fun n => n.data == s.map (fun c => c.toLower))).map (· + 1)

/-- Parse of `workDate` strings: `pd.to_datetime(s, format='%b %d, %Y',
    errors='coerce')` from src/app.py line 35, returning the day number, or
    `none` (pandas `NaT`) when `s` does not match the format exactly:
    abbreviated month name, whitespace, a 1-2 digit day (1..31, then checked
    against the month length as the datetime constructor does), a comma,
    whitespace, and exactly four year digits ending the string. -/
def parseDate (s : String) : Option Int :=
  let cs := s.data
  let mcs := cs.takeWhile (fun c => c.isAlpha)
  let r1 := cs.dropWhile (fun c => c.isAlpha)
  match monthFromAbbrev mcs with
  | none => none
  | some m =>
    let ws1 := r1.takeWhile (fun c => c.isWhitespace)
    let r2 := r1.dropWhile (fun c => c.isWhitespace)
    if ws1.isEmpty then none
    else
      let dds := r2.takeWhile (fun c => c.isDigit)
      let r3 := r2.dropWhile (fun c => c.isDigit)
      let d := digitsToNat dds
      if dds.length = 0 ∨ 2 < dds.length ∨ d = 0 ∨ 31 < d then none
      else
        match r3 with
        | ',' :: r4 =>
          let ws2 := r4.takeWhile (fun c => c.isWhitespace)
          let r5 := r4.dropWhile (fun c => c.isWhitespace)
          if ws2.isEmpty then none
          else
            let yds := r5.takeWhile (fun c => c.isDigit)
            let r6 := r5.dropWhile (fun c => c.isDigit)
            if yds.length = 4 ∧ r6 = [] then
              let y := digitsToNat yds
              if d ≤ daysInMonth y m then some (days_from_civil y m d) else none
            else none
        | _ => none

/-- Value of an integer digit part and a fractional digit part as an exact
    rational, e.g. `1234` and `50` give `1234.50`. -/
def mantissaVal (ids fds : List Char) : ℚ :=
  mkRat (Int.ofNat (digitsToNat ids * 10 ^ fds.length + digitsToNat fds)) (10 ^ fds.length)

/-- Optional exponent part and end of a Python float literal: accepts
    trailing whitespace, or `e`/`E`, an optional sign, and digits followed
    by trailing whitespace; scales the mantissa accordingly. -/
def parseFloatExpTail (cs : List Char) (mant : ℚ) : Option ℚ :=
  if cs.all (fun c => c.isWhitespace) then some mant
  else
    match cs with
    | c :: t =>
      if c == 'e' || c == 'E' then
        let (epos, t2) : Bool × List Char :=
          match t with
          | '+' :: u => (true, u)
          | '-' :: u => (false, u)
          | u => (true, u)
        let eds := t2.takeWhile (fun c => c.isDigit)
        let rest := t2.dropWhile (fun c => c.isDigit)
        if eds.isEmpty then none
        else if rest.all (fun c => c.isWhitespace) then
          let e := digitsToNat eds
          some (if epos then mant * mkRat (Int.ofNat (10 ^ e)) 1
                else mant / mkRat (Int.ofNat (10 ^ e)) 1)
        else none
      else none
    | [] => none

/-- Python `float(s)` on the already-stripped payout string: optional
    surrounding whitespace, optional sign, decimal digits with an optional
    point and an optional exponent.  Returns `none` where `float` raises
    `ValueError` (which `astype(float)` propagates). -/
def parseFloat (s : String) : Option ℚ :=
  let cs0 := s.data.dropWhile (fun c => c.isWhitespace)
  let (neg, cs) : Bool × List Char :=
    match cs0 with
    | '+' :: t => (false, t)
    | '-' :: t => (true, t)
    | t => (false, t)
  let intDs := cs.takeWhile (fun c => c.isDigit)
  let cs1 := cs.dropWhile (fun c => c.isDigit)
  let res : Option ℚ :=
    match cs1 with
    | '.' :: t =>
      let fracDs := t.takeWhile (fun c => c.isDigit)
      let rest := t.dropWhile (fun c => c.isDigit)
      if intDs.isEmpty && fracDs.isEmpty then none
      else parseFloatExpTail rest (mantissaVal intDs fracDs)
    | rest =>
      if intDs.isEmpty then none
      else parseFloatExpTail rest (mantissaVal intDs [])
  res.map (fun q => if neg then -q else q)

/-- Currency stripping from src/app.py line 31:
    `df['payout'].replace('[\x24,]', '', regex=True)` removes every dollar
    sign and comma from the payout string. -/
def stripCurrency (s : String) : String :=
  String.mk (s.data.filter (fun c => !(c == '$' || c == ',')))

/-- Payout conversion of one cell, src/app.py line 31: strip `$` and `,`,
    then `astype(float)`. -/
def payoutToFloat (s : String) : Option ℚ :=
  parseFloat (stripCurrency s)

/-- One raw CSV row: the two required columns as uploaded (other columns
    are carried through unchanged by the code and are irrelevant here). -/
structure RawRow where
  workDate : String
  payout : String
deriving DecidableEq, Repr

/-- One cleaned record: parsed work date (day number) and payout amount. -/
structure Record where
  workDate : Int
  payout : ℚ
deriving DecidableEq, Repr

/-- The payout-column conversion applied to every row (src/app.py line 31).
    `astype(float)` raises on the first unconvertible value, so a single bad
    payout makes the whole conversion fail. -/
def convertPayouts : List RawRow → Option (List (String × ℚ))
  | [] => some []
  | r :: rs =>
    match payoutToFloat r.payout with
    | none => none
    | some a => (convertPayouts rs).map (fun ps => (r.workDate, a) :: ps)

/-- Date parsing with `errors='coerce'` followed by
    `dropna(subset=['workDate'])` (src/app.py lines 35-38): rows whose date
    does not parse are removed. -/
def dropInvalidDates (prs : List (String × ℚ)) : List Record :=
  prs.filterMap (fun p => (parseDate p.1).map (fun d => ⟨d, p.2⟩))

/-- `df.sort_values('workDate', ascending=False)` (src/app.py line 41). -/
def sort_values (df : List Record) : List Record :=
  List.insertionSort (fun a b => b.workDate ≤ a.workDate) df

/-- Distinct values of a list in first-appearance order, accumulator form. -/
def dedupFirstAux (seen : List Int) : List Int → List Int
  | [] => []
  | d :: ds =>
    if d ∈ seen then dedupFirstAux seen ds
    else d :: dedupFirstAux (d :: seen) ds

/-- Distinct values of a list in first-appearance order. -/
def dedupFirst (l : List Int) : List Int :=
  dedupFirstAux [] l

/-- Group keys of `df.groupby(df['workDate'].dt.date, sort=False)`
    (src/app.py line 44): the distinct dates in first-seen order. -/
def groupKeys (df : List Record) : List Int :=
  dedupFirst (df.map (fun r => r.workDate))

/-- The groups of `df.groupby(df['workDate'].dt.date, sort=False)`: each
    first-seen key paired with the rows carrying that date. -/
def grouped (df : List Record) : List (Int × List Record) :=
  (groupKeys df).map (fun k => (k, df.filter (fun r => r.workDate == k)))

/-- `grouped.ngroups` (src/app.py line 50). -/
def number_of_groups (df : List Record) : Nat :=
  (grouped df).length

/-- `group['payout'].sum()` for one group (src/app.py line 131). -/
def total_payout (g : List Record) : ℚ :=
  (g.map (fun r => r.payout)).sum

/-- `df['payout'].sum()` (src/app.py line 47). -/
def total_earnings (df : List Record) : ℚ :=
  (df.map (fun r => r.payout)).sum

/-- `total_earnings / number_of_groups if number_of_groups > 0 else 0`
    (src/app.py line 51). -/
def average_earnings (total : ℚ) (n : Nat) : ℚ :=
  if 0 < n then total / (n : ℚ) else 0

/-- `df['workDate'].max()` (src/app.py line 57); `none` is pandas `NaT` on
    an empty frame. -/
def most_recent_date (df : List Record) : Option Int :=
  (df.map (fun r => r.workDate)).max?

/-- `Timestamp.weekday()`: Monday = 0 .. Sunday = 6.  Day number 0
    (1970-01-01) was a Thursday, hence the offset 3. -/
def day_of_week (d : Int) : Int :=
  (d + 3) % 7

/-- Pay-period start (src/app.py lines 63-66): the Tuesday of the current
    week, or the previous Tuesday when the most recent date is a Monday. -/
def pay_period_start (m : Int) : Int :=
  if 1 ≤ day_of_week m then m - (day_of_week m - 1) else m - 6

/-- Pay-period end (src/app.py line 68): start plus six days. -/
def pay_period_end (m : Int) : Int :=
  pay_period_start m + 6

/-- Sum of payouts with work date inside the inclusive window
    (src/app.py lines 71-73). -/
def current_pay_period (df : List Record) (s e : Int) : ℚ :=
  total_payout (df.filter (fun r => decide (s ≤ r.workDate) && decide (r.workDate ≤ e)))

/-- One thing the page shows, in emission order. -/
inductive RenderItem where
  | totalCard (total : ℚ)
  | avgCard (ndays : Nat) (avg : ℚ)
  | periodCard (s e : Int) (sum : ℚ)
  | separator
  | dayGroup (date : Int) (total : ℚ) (recs : List Record)
deriving DecidableEq, Repr

/-- The two user-visible failure messages: the schema `st.error` of
    src/app.py line 27, and the catch-all of line 136 with its cause text. -/
inductive AppError where
  | schema
  | generic (cause : String)
deriving DecidableEq, Repr

/-- Cause text of the exception `astype(float)` raises on a bad payout. -/
def floatCauseMsg : String := "could not convert string to float"

/-- Cause text of the exception `NaT.strftime` raises when the frame was
    empty and the pay-period bounds are `NaT`. -/
def natCauseMsg : String := "NaTType does not support strftime"

/-- Everything one upload displays: the items rendered before control left
    the `try` block, and the error message, if any, shown after it. -/
structure AppOutput where
  rendered : List RenderItem
  error : Option AppError
deriving DecidableEq, Repr

/-- src/app.py lines 41-133 on the cleaned records: sort, group, compute the
    three metrics, then render.  With an empty frame `most_recent_date` is
    `NaT`; `NaT.weekday()` is nan, `nan >= 1` is `False`, so the Monday
    branch makes both period bounds `NaT`, and the first two metric cards
    render before `pay_period_start.strftime(...)` raises inside the third
    column, which the top-level handler turns into the generic message. -/
def renderFromRecords (recs : List Record) : AppOutput :=
  let df := sort_values recs
  let total := total_earnings df
  let n := number_of_groups df
  let avg := average_earnings total n
  match most_recent_date df with
  | none =>
    ⟨[RenderItem.totalCard total, RenderItem.avgCard n avg],
      some (AppError.generic natCauseMsg)⟩
  | some m =>
    let s := pay_period_start m
    let e := pay_period_end m
    let cur := current_pay_period df s e
    ⟨[RenderItem.totalCard total, RenderItem.avgCard n avg,
        RenderItem.periodCard s e cur, RenderItem.separator]
      ++ (grouped df).map (fun g => RenderItem.dayGroup g.1 (total_payout g.2) g.2),
      none⟩

/-- One upload (src/app.py lines 19-136), given the uploaded table's column
    names and rows: the schema check, then payout conversion over every row,
    then date cleaning and the full summary. -/
def runApp (cols : List String) (rows : List RawRow) : AppOutput :=
  if "workDate" ∈ cols ∧ "payout" ∈ cols then
    match convertPayouts rows with
    | none => ⟨[], some (AppError.generic floatCauseMsg)⟩
    | some prs => renderFromRecords (dropInvalidDates prs)
  else ⟨[], some AppError.schema⟩

instance : IsTotal Record (fun a b => b.workDate ≤ a.workDate) :=
  ⟨fun a b => le_total b.workDate a.workDate⟩

instance : IsTrans Record (fun a b => b.workDate ≤ a.workDate) :=
  ⟨fun _ _ _ h1 h2 => le_trans h2 h1⟩

lemma mem_dedupFirstAux (x : Int) (l : List Int) :
    ∀ seen, x ∈ dedupFirstAux seen l ↔ (x ∈ l ∧ x ∉ seen) := by
  induction l with
  | nil => intro seen; simp [dedupFirstAux]
  | cons d ds ih =>
    intro seen
    by_cases hd : d ∈ seen
    · rw [dedupFirstAux, if_pos hd, ih seen]
      constructor
      · rintro ⟨h1, h2⟩; exact ⟨List.mem_cons_of_mem _ h1, h2⟩
      · rintro ⟨h1, h2⟩
        rcases List.mem_cons.mp h1 with rfl | h1
        · exact absurd hd h2
        · exact ⟨h1, h2⟩
    · rw [dedupFirstAux, if_neg hd]
      by_cases hxd : x = d
      · subst hxd; simp [hd]
      · simp [List.mem_cons, hxd, ih (d :: seen)]

lemma nodup_dedupFirstAux (l : List Int) :
    ∀ seen, (dedupFirstAux seen l).Nodup := by
  induction l with
  | nil => intro seen; simp [dedupFirstAux]
  | cons d ds ih =>
    intro seen
    by_cases hd : d ∈ seen
    · rw [dedupFirstAux, if_pos hd]; exact ih seen
    · rw [dedupFirstAux, if_neg hd]
      refine List.nodup_cons.mpr ⟨?_, ih _⟩
      intro hmem
      rcases (mem_dedupFirstAux d ds _).mp hmem with ⟨_, h2⟩
      exact h2 (List.mem_cons_self d seen)

lemma dedupFirst_nodup (l : List Int) : (dedupFirst l).Nodup :=
  nodup_dedupFirstAux l []

lemma mem_dedupFirst (x : Int) (l : List Int) : x ∈ dedupFirst l ↔ x ∈ l := by
  simpa using mem_dedupFirstAux x l []

lemma perm_map_toFinset_eq {l₁ l₂ : List Int} (h : l₁.Perm l₂) :
    l₁.toFinset = l₂.toFinset := by
  ext x
  simp [List.mem_toFinset, h.mem_iff]

lemma length_dedupFirst (l : List Int) : (dedupFirst l).length = l.toFinset.card := by
  have h1 : (dedupFirst l).toFinset = l.toFinset := by
    ext x
    simp [List.mem_toFinset, mem_dedupFirst]
  rw [← h1, List.toFinset_card_of_nodup (dedupFirst_nodup l)]

lemma total_payout_nil : total_payout [] = 0 := rfl

lemma total_payout_cons (r : Record) (l : List Record) :
    total_payout (r :: l) = r.payout + total_payout l := by
  simp [total_payout]

lemma total_payout_filter_add (p : Record → Bool) (l : List Record) :
    total_payout (l.filter p) + total_payout (l.filter (fun r => !(p r))) = total_payout l := by
  induction l with
  | nil => simp [total_payout]
  | cons a t ih =>
    cases hpa : p a
    · have h1 : List.filter p (a :: t) = List.filter p t := by
        simp [List.filter_cons, hpa]
      have h2 : List.filter (fun r => !(p r)) (a :: t)
          = a :: List.filter (fun r => !(p r)) t := by
        simp [List.filter_cons, hpa]
      rw [h1, h2, total_payout_cons, total_payout_cons]
      linarith [ih]
    · have h1 : List.filter p (a :: t) = a :: List.filter p t := by
        simp [List.filter_cons, hpa]
      have h2 : List.filter (fun r => !(p r)) (a :: t)
          = List.filter (fun r => !(p r)) t := by
        simp [List.filter_cons, hpa]
      rw [h1, h2, total_payout_cons, total_payout_cons]
      linarith [ih]

lemma sum_group_totals (ks : List Int) (l : List Record)
    (hnd : ks.Nodup) (hcov : ∀ r ∈ l, r.workDate ∈ ks) :
    ((ks.map (fun k => total_payout (l.filter (fun r => r.workDate == k)))).sum)
      = total_payout l := by
  induction ks generalizing l with
  | nil =>
    have hl : l = [] := by
      cases l with
      | nil => rfl
      | cons a t => exact absurd (hcov a (List.mem_cons_self a t)) (List.not_mem_nil _)
    subst hl
    simp [total_payout]
  | cons k ks ih =>
    rcases List.nodup_cons.mp hnd with ⟨hk, hnd2⟩
    have hmapeq : (ks.map (fun k2 => total_payout (l.filter (fun r => r.workDate == k2))))
        = (ks.map (fun k2 => total_payout
            ((l.filter (fun r => !(r.workDate == k))).filter (fun r => r.workDate == k2)))) := by
      refine List.map_congr_left ?_
      intro k2 hk2
      have hne : k2 ≠ k := fun h => hk (h ▸ hk2)
      congr 1
      rw [List.filter_filter]
      refine (List.filter_congr ?_).symm
      intro r _
      by_cases hr2 : r.workDate = k2
      · simp [hr2, hne]
      · simp [hr2]
    have hcov2 : ∀ r ∈ l.filter (fun r => !(r.workDate == k)), r.workDate ∈ ks := by
      intro r hr
      rcases List.mem_filter.mp hr with ⟨hrl, hbn⟩
      rcases List.mem_cons.mp (hcov r hrl) with h | h
      · rw [h] at hbn; simp at hbn
      · exact h
    calc ((k :: ks).map (fun k2 => total_payout (l.filter (fun r => r.workDate == k2)))).sum
        = total_payout (l.filter (fun r => r.workDate == k)) +
            (ks.map (fun k2 => total_payout (l.filter (fun r => r.workDate == k2)))).sum := by
          simp
      _ = total_payout (l.filter (fun r => r.workDate == k)) +
            total_payout (l.filter (fun r => !(r.workDate == k))) := by
          rw [hmapeq, ih _ hnd2 hcov2]
      _ = total_payout l := total_payout_filter_add _ l

lemma convertPayouts_append (l₁ l₂ : List RawRow) :
    convertPayouts (l₁ ++ l₂)
      = (convertPayouts l₁).bind (fun p₁ => (convertPayouts l₂).map (fun p₂ => p₁ ++ p₂)) := by
  induction l₁ with
  | nil =>
    cases h : convertPayouts l₂ <;> simp [convertPayouts, h]
  | cons r t ih =>
    have hcons : ∀ (rs : List RawRow), convertPayouts (r :: rs)
        = match payoutToFloat r.payout with
          | none => none
          | some a => (convertPayouts rs).map (fun ps => (r.workDate, a) :: ps) :=
      fun _ => rfl
    rw [List.cons_append, hcons, hcons, ih]
    cases payoutToFloat r.payout with
    | none => rfl
    | some a => cases convertPayouts t <;> cases convertPayouts l₂ <;> rfl

lemma convertPayouts_eq_none (rows : List RawRow) (r : RawRow)
    (hmem : r ∈ rows) (hp : payoutToFloat r.payout = none) :
    convertPayouts rows = none := by
  induction rows with
  | nil => cases hmem
  | cons a t ih =>
    rcases List.mem_cons.mp hmem with rfl | h
    · simp [convertPayouts, hp]
    · rw [convertPayouts]
      cases payoutToFloat a.payout with
      | none => rfl
      | some b => rw [ih h]; rfl

lemma renderFromRecords_error (recs : List Record) :
    (renderFromRecords recs).error = none
      ∨ (renderFromRecords recs).error = some (AppError.generic natCauseMsg) := by
  rw [renderFromRecords]
  cases most_recent_date (sort_values recs) <;> simp

lemma runApp_error_ne_schema (cols : List String) (rows : List RawRow)
    (hc : "workDate" ∈ cols ∧ "payout" ∈ cols) :
    (runApp cols rows).error ≠ some AppError.schema := by
  rw [runApp, if_pos hc]
  cases h : convertPayouts rows with
  | none => simp
  | some prs =>
    rcases renderFromRecords_error (dropInvalidDates prs) with h2 | h2 <;>
      simp [h2]

/-- C1: for every non-empty sequence of parsed records, with `m` the most
    recent record date, the pay-period window spans exactly 7 days inclusive
    (`end = start + 6`), starts on a Tuesday (`day_of_week = 1`), ends on the
    following Monday (`day_of_week = 0`), contains `m`, and the start is
    `m - (dow - 1)` when `dow >= 1` and `m - 6` when `dow = 0`. -/
theorem claim_C1_pay_period_window (df : List Record) (m : Int)
    (_h : most_recent_date df = some m) :
    pay_period_end m = pay_period_start m + 6
    ∧ day_of_week (pay_period_start m) = 1
    ∧ day_of_week (pay_period_end m) = 0
    ∧ (pay_period_start m ≤ m ∧ m ≤ pay_period_end m)
    ∧ pay_period_start m
        = (if 1 ≤ day_of_week m then m - (day_of_week m - 1) else m - 6) := by
  refine ⟨rfl, ?_, ?_, ?_, rfl⟩ <;>
    · simp only [pay_period_end, pay_period_start, day_of_week]
      split <;> omega

/-- C1 witness: the window around Monday, Dec 16, 2024 (the Monday scenario
    of the spec). -/
theorem claim_C1_pay_period_window_witness :
    pay_period_end (days_from_civil 2024 12 16)
        = pay_period_start (days_from_civil 2024 12 16) + 6
    ∧ day_of_week (pay_period_start (days_from_civil 2024 12 16)) = 1
    ∧ day_of_week (pay_period_end (days_from_civil 2024 12 16)) = 0
    ∧ (pay_period_start (days_from_civil 2024 12 16) ≤ days_from_civil 2024 12 16
        ∧ days_from_civil 2024 12 16 ≤ pay_period_end (days_from_civil 2024 12 16))
    ∧ pay_period_start (days_from_civil 2024 12 16)
        = (if 1 ≤ day_of_week (days_from_civil 2024 12 16)
            then days_from_civil 2024 12 16 - (day_of_week (days_from_civil 2024 12 16) - 1)
            else days_from_civil 2024 12 16 - 6) :=
  claim_C1_pay_period_window [⟨days_from_civil 2024 12 16, 5⟩]
    (days_from_civil 2024 12 16) (by rfl)

/-- C3: the daily average is the guarded quotient: when the number of groups
    is positive it equals total divided by the group count (equivalently,
    average times group count recovers the total), and when the group count
    is zero it is 0, so the division is never taken with a zero divisor. -/
theorem claim_C3_average_guarded (total : ℚ) (n : Nat) :
    (0 < n → average_earnings total n = total / (n : ℚ)
        ∧ average_earnings total n * (n : ℚ) = total)
    ∧ (n = 0 → average_earnings total n = 0) := by
  constructor
  · intro h
    have hn : (n : ℚ) ≠ 0 := Nat.cast_ne_zero.mpr h.ne'
    refine ⟨by simp [average_earnings, h], ?_⟩
    simp only [average_earnings, h, if_true]
    exact div_mul_cancel₀ total hn
  · intro h
    simp [average_earnings, h]

/-- C3 witness: at the spec scenario total 350 over 2 groups. -/
theorem claim_C3_average_guarded_witness :
    average_earnings 350 2 = 350 / ((2 : Nat) : ℚ)
    ∧ average_earnings 350 2 * ((2 : Nat) : ℚ) = 350 :=
  (claim_C3_average_guarded 350 2).1 (by decide)

/-- C4: the overall total equals the sum over the groups of the per-group
    totals — grouping neither double-counts nor loses any record. -/
theorem claim_C4_total_is_sum_of_group_totals (df : List Record) :
    total_earnings df = ((grouped df).map (fun g => total_payout g.2)).sum := by
  have h1 : ((grouped df).map (fun g => total_payout g.2))
      = (groupKeys df).map (fun k => total_payout (df.filter (fun r => r.workDate == k))) := by
    simp [grouped, List.map_map, Function.comp]
  have hcov : ∀ r ∈ df, r.workDate ∈ groupKeys df := by
    intro r hr
    have hm : r.workDate ∈ df.map (fun r => r.workDate) := List.mem_map_of_mem _ hr
    exact (mem_dedupFirst _ _).mpr hm
  rw [h1, sum_group_totals (groupKeys df) df (dedupFirst_nodup _) hcov]
  rfl

/-- C5: the valid records are sorted by date descending before grouping
    (the sorted list is a date-descending permutation of the records), the
    group iteration order is exactly the first-seen order of the distinct
    dates in that sorted sequence, and the number of groups is the number of
    distinct dates present. -/
theorem claim_C5_sort_and_group_order (recs : List Record) :
    (sort_values recs).Pairwise (fun a b => b.workDate ≤ a.workDate)
    ∧ (sort_values recs).Perm recs
    ∧ (grouped (sort_values recs)).map Prod.fst
        = dedupFirst ((sort_values recs).map (fun r => r.workDate))
    ∧ number_of_groups (sort_values recs)
        = ((recs.map (fun r => r.workDate)).toFinset).card := by
  refine ⟨List.sorted_insertionSort _ recs, List.perm_insertionSort _ recs, ?_, ?_⟩
  · simp [grouped, groupKeys, List.map_map, Function.comp_def]
  · have hperm : ((sort_values recs).map (fun r => r.workDate)).Perm
        (recs.map (fun r => r.workDate)) :=
      (List.perm_insertionSort _ recs).map _
    simp only [number_of_groups, grouped, List.length_map, groupKeys]
    rw [length_dedupFirst, perm_map_toFinset_eq hperm]

/-- C7: currency normalization strips every dollar sign and comma and parses
    the rest as a decimal number; both example strings normalize to 1234.50,
    and no stripped string retains a dollar sign or comma. -/
theorem claim_C7_currency_normalization :
    payoutToFloat "$1,234.50" = some ((2469 : ℚ) / 2)
    ∧ payoutToFloat "1234.50" = some ((2469 : ℚ) / 2)
    ∧ stripCurrency "$1,234.50" = "1234.50"
    ∧ ∀ s : String, '$' ∉ (stripCurrency s).data ∧ ',' ∉ (stripCurrency s).data := by
  have h1 : payoutToFloat "$1,234.50" = some (mkRat 123450 100) := rfl
  have h2 : payoutToFloat "1234.50" = some (mkRat 123450 100) := rfl
  have h3 : mkRat 123450 100 = (2469 : ℚ) / 2 := by
    rw [Rat.mkRat_eq_divInt]
    norm_num [Rat.divInt_eq_div]
  refine ⟨by rw [h1, h3], by rw [h2, h3], by decide, ?_⟩
  intro s
  constructor <;>
    · intro hmem
      rcases List.mem_filter.mp hmem with ⟨_, hb⟩
      simp at hb

/-- C2: evaluation of the code at a table whose only row has an invalid
    date.  The claim says totals, groups and average all report zero without
    faulting and that the pay-period calculation is guarded; the code
    instead reaches the pay-period path unguarded, the `NaT` period start
    fails to format, and the upload ends in the catch-all error message
    after only the total and average cards were rendered. -/
theorem claim_C2_empty_valid_set_faults :
    runApp ["workDate", "payout"] [⟨"13/01/2025", "$7.25"⟩]
      = ⟨[RenderItem.totalCard 0, RenderItem.avgCard 0 0],
          some (AppError.generic natCauseMsg)⟩ := by
  rfl

/-- C6 counterexample: a row whose date does not parse but whose payout is
    also unparsable is not silently dropped — its presence aborts the whole
    upload, while the same upload without it succeeds. -/
theorem claim_C6_counterexample :
    parseDate "bogus" = none
    ∧ (runApp ["workDate", "payout"]
        [⟨"Dec 17, 2024", "$100.00"⟩, ⟨"bogus", "abc"⟩]).error
        = some (AppError.generic floatCauseMsg)
    ∧ (runApp ["workDate", "payout"] [⟨"Dec 17, 2024", "$100.00"⟩]).error = none :=
  ⟨rfl, rfl, rfl⟩

/-- C6 (amended): a row whose date does not parse, provided its payout does
    parse, is silently dropped: removing it from any upload changes nothing
    — it is excluded from the totals, the group count, the pay-period sum
    and every group output, and its presence neither aborts processing nor
    produces an error.  (A bad-date row whose payout is also unparsable
    still aborts the upload, because payout conversion runs first.) -/
theorem claim_C6_bad_date_row_dropped (cols : List String)
    (rows₁ rows₂ : List RawRow) (r : RawRow)
    (hd : parseDate r.workDate = none) (hp : (payoutToFloat r.payout).isSome) :
    runApp cols (rows₁ ++ r :: rows₂) = runApp cols (rows₁ ++ rows₂) := by
  rw [runApp, runApp]
  by_cases hc : "workDate" ∈ cols ∧ "payout" ∈ cols
  · rw [if_pos hc, if_pos hc]
    rcases Option.isSome_iff_exists.mp hp with ⟨a, ha⟩
    rw [convertPayouts_append, convertPayouts_append]
    cases h₁ : convertPayouts rows₁ with
    | none => rfl
    | some p₁ =>
      have hr : convertPayouts (r :: rows₂)
          = (convertPayouts rows₂).map (fun ps => (r.workDate, a) :: ps) := by
        rw [convertPayouts, ha]
      rw [hr, Option.some_bind, Option.some_bind]
      cases h₂ : convertPayouts rows₂ with
      | none => rfl
      | some p₂ =>
        simp only [Option.map_some', Option.some_bind]
        congr 1
        simp [dropInvalidDates, List.filterMap_append, List.filterMap_cons, hd]
  · rw [if_neg hc, if_neg hc]

/-- C6 witness: dropping a concrete bad-date, good-payout row leaves the
    output unchanged. -/
theorem claim_C6_bad_date_row_dropped_witness :
    runApp ["workDate", "payout"]
        ([⟨"Dec 17, 2024", "$100.00"⟩] ++ ⟨"bogus", "$5.00"⟩ :: [])
      = runApp ["workDate", "payout"] ([⟨"Dec 17, 2024", "$100.00"⟩] ++ []) :=
  claim_C6_bad_date_row_dropped ["workDate", "payout"]
    [⟨"Dec 17, 2024", "$100.00"⟩] [] ⟨"bogus", "$5.00"⟩ (by rfl) (by rfl)

/-- C8: the upload fails with the schema error, rendering nothing else, if
    and only if at least one of the required columns `workDate`, `payout`
    is absent from the uploaded table's columns; membership is exact,
    case-sensitive string equality. -/
theorem claim_C8_schema_validation (cols : List String) (rows : List RawRow) :
    ((runApp cols rows).error = some AppError.schema
        ↔ ("workDate" ∉ cols ∨ "payout" ∉ cols))
    ∧ ((runApp cols rows).error = some AppError.schema
        → (runApp cols rows).rendered = []) := by
  by_cases hc : "workDate" ∈ cols ∧ "payout" ∈ cols
  · refine ⟨⟨fun h => absurd h (runApp_error_ne_schema cols rows hc), ?_⟩,
      fun h => absurd h (runApp_error_ne_schema cols rows hc)⟩
    rintro (h | h)
    · exact absurd hc.1 h
    · exact absurd hc.2 h
  · have hr : runApp cols rows = ⟨[], some AppError.schema⟩ := by
      rw [runApp, if_neg hc]
    rw [hr]
    refine ⟨⟨fun _ => ?_, fun _ => rfl⟩, fun _ => rfl⟩
    by_cases h1 : "workDate" ∈ cols
    · exact Or.inr (fun h2 => hc ⟨h1, h2⟩)
    · exact Or.inl h1

/-- C8 witness: a table whose columns are `workdate` (wrong case) and
    `payout` is rejected by the schema check. -/
theorem claim_C8_schema_validation_witness :
    (runApp ["workdate", "payout"] []).error = some AppError.schema :=
  (claim_C8_schema_validation ["workdate", "payout"] []).1.mpr (by decide)

/-- C9: evaluation of the code at a table whose only row has an invalid
    date.  The claim says a failing upload never shows partial results next
    to the error message; the code instead renders the total and average
    cards and then the error message for this input, so the display is not
    atomic. -/
theorem claim_C9_partial_render_with_error :
    (runApp ["workDate", "payout"] [⟨"Jan 5 2025", "$3.00"⟩]).error
        = some (AppError.generic natCauseMsg)
    ∧ (runApp ["workDate", "payout"] [⟨"Jan 5 2025", "$3.00"⟩]).rendered
        = [RenderItem.totalCard 0, RenderItem.avgCard 0 0] :=
  ⟨rfl, rfl⟩

/-- C10: payout conversion runs over every row before invalid dates are
    dropped, so any row with an unparsable payout aborts the whole upload
    with the fatal conversion error — regardless of that row's date, in
    particular even when its date is invalid and the row would later have
    been dropped. -/
theorem claim_C10_payout_converted_before_date_drop (cols : List String)
    (rows : List RawRow) (r : RawRow) (hmem : r ∈ rows)
    (hp : payoutToFloat r.payout = none)
    (hc : "workDate" ∈ cols ∧ "payout" ∈ cols) :
    runApp cols rows = ⟨[], some (AppError.generic floatCauseMsg)⟩ := by
  rw [runApp, if_pos hc, convertPayouts_eq_none rows r hmem hp]

/-- C10 witness: a row with an invalid date and an unparsable payout aborts
    the upload even though the bad date alone would merely have been
    dropped. -/
theorem claim_C10_payout_converted_before_date_drop_witness :
    runApp ["workDate", "payout"] [⟨"Dec 17, 2024", "$1.00"⟩, ⟨"garbage", "x$y"⟩]
        = ⟨[], some (AppError.generic floatCauseMsg)⟩
    ∧ parseDate "garbage" = none :=
  ⟨claim_C10_payout_converted_before_date_drop ["workDate", "payout"]
      [⟨"Dec 17, 2024", "$1.00"⟩, ⟨"garbage", "x$y"⟩] ⟨"garbage", "x$y"⟩
      (by decide) (by rfl) (by decide),
    by rfl⟩

end OutlierEarnings
